import Mathlib

/-!
# Ensemble Prediction Engine — verification development

Shallow embedding of `src/lib/ensembleEngine.js` (class `EnsembleEngine`).

Conventions of the embedding:

* JavaScript numbers are modelled as exact rationals (`ℚ`).  Where the source
  can produce a non-finite IEEE-754 value (division by zero yielding
  `Infinity`/`-Infinity`/`NaN`), the expression is modelled by `JsNum`, a
  rational extended with the three non-finite values, with IEEE-754
  comparison semantics (`NaN` compares false).  `-0` is collapsed to `0`;
  no comparison or branch in the source distinguishes them.
* A thrown JavaScript exception is modelled by `Option.none`
  (`math.std` of an empty array throws; reading `.outcome` of `undefined`
  throws).  `Promise.all` rejects when any model's promise rejects, so
  `predictNextOutcome` propagates `none`.
* `Date`-based fields (`nextIssueTime`, wall-clock only) are outside the
  pure model and are omitted from the result record.
* `toFixed(2)`/`'%'` string formatting of already-computed numbers is
  presentation only; the result record holds the numbers being formatted.
-/

namespace Kankan

/-- The two coarse outcomes of a draw (`'BIG'` / `'SMALL'` strings in the source). -/
inductive Outcome where
  | BIG
  | SMALL
deriving DecidableEq, Repr

/-- Normalized history entry consumed by the engine (newest first).
`src/lib/dataFetcher.js` produces `{issue, result, number, outcome, timestamp}`;
the engine reads only `number` and `outcome` (plus `issue` for ids upstream). -/
structure DrawRecord where
  issue : String
  number : ℚ
  outcome : Outcome
deriving DecidableEq, Repr

/-- A JavaScript number that may be non-finite: an exact rational, `Infinity`,
`-Infinity`, or `NaN`.  `-0` is collapsed into `fin 0`. -/
inductive JsNum where
  | fin (q : ℚ)
  | posInf
  | negInf
  | nan
deriving DecidableEq, Repr

namespace JsNum

/-- IEEE-754 unary negation. -/
def neg : JsNum → JsNum
  | fin q => fin (-q)
  | posInf => negInf
  | negInf => posInf
  | nan => nan

/-- IEEE-754 addition (`Infinity + -Infinity = NaN`). -/
def add : JsNum → JsNum → JsNum
  | nan, _ => nan
  | _, nan => nan
  | posInf, negInf => nan
  | negInf, posInf => nan
  | posInf, _ => posInf
  | _, posInf => posInf
  | negInf, _ => negInf
  | _, negInf => negInf
  | fin a, fin b => fin (a + b)

/-- IEEE-754 subtraction. -/
def sub (a b : JsNum) : JsNum := add a (neg b)

/-- IEEE-754 multiplication (`Infinity * 0 = NaN`). -/
def mul : JsNum → JsNum → JsNum
  | nan, _ => nan
  | _, nan => nan
  | posInf, posInf => posInf
  | posInf, negInf => negInf
  | negInf, posInf => negInf
  | negInf, negInf => posInf
  | posInf, fin b => if 0 < b then posInf else if b < 0 then negInf else nan
  | fin a, posInf => if 0 < a then posInf else if a < 0 then negInf else nan
  | negInf, fin b => if 0 < b then negInf else if b < 0 then posInf else nan
  | fin a, negInf => if 0 < a then negInf else if a < 0 then posInf else nan
  | fin a, fin b => fin (a * b)

/-- IEEE-754 division.  Finite / zero follows the sign of the numerator with a
`+0` denominator (all zero denominators in this code arise as exact `+0`);
`0 / 0 = NaN`, `Infinity / Infinity = NaN`, finite / `Infinity` = `0`. -/
def div : JsNum → JsNum → JsNum
  | nan, _ => nan
  | _, nan => nan
  | posInf, posInf => nan
  | posInf, negInf => nan
  | negInf, posInf => nan
  | negInf, negInf => nan
  | posInf, fin b => if b < 0 then negInf else posInf
  | negInf, fin b => if b < 0 then posInf else negInf
  | fin _, posInf => fin 0
  | fin _, negInf => fin 0
  | fin a, fin b =>
      if b = 0 then (if a = 0 then nan else if 0 < a then posInf else negInf)
      else fin (a / b)

/-- `Math.abs`. -/
def abs : JsNum → JsNum
  | fin q => fin |q|
  | posInf => posInf
  | negInf => posInf
  | nan => nan

/-- JavaScript `<` (false whenever either side is `NaN`). -/
def ltB : JsNum → JsNum → Bool
  | nan, _ => false
  | _, nan => false
  | fin a, fin b => decide (a < b)
  | fin _, posInf => true
  | fin _, negInf => false
  | negInf, negInf => false
  | negInf, _ => true
  | posInf, _ => false

/-- JavaScript `>` (false whenever either side is `NaN`). -/
def gtB (a b : JsNum) : Bool := ltB b a

end JsNum

/-- lodash `_.mean`: sum divided by length.  In JS the mean of an empty array
is `NaN`; every call site below guards or otherwise guarantees a nonempty
slice, so `ℚ`'s `x / 0 = 0` convention is never relied upon. -/
def jsMean (xs : List ℚ) : ℚ := xs.sum / (xs.length : ℚ)

/-- Rational stand-in for the IEEE-754 square root computed by mathjs:
exact on perfect squares of rationals (every case the claims exercise,
in particular `ratSqrt 0 = 0`), a rational approximation otherwise.
No theorem below depends on the approximate branch. -/
def ratSqrt (q : ℚ) : ℚ :=
  if q ≤ 0 then 0 else (Nat.sqrt q.num.toNat : ℚ) / (Nat.sqrt q.den : ℚ)

/-- mathjs `std` with the default `'unbiased'` normalization:
`none` models the error thrown on an empty input, a single sample gives `0`
(mathjs returns the zero value for `n = 1`), otherwise
`sqrt (Σ (x - mean)² / (n - 1))`. -/
def mathStd (xs : List ℚ) : Option ℚ :=
  match xs with
  | [] => none
  | [_] => some 0
  | _ =>
      let m := jsMean xs
      some (ratSqrt (((xs.map (fun x => (x - m) ^ 2)).sum) / ((xs.length : ℚ) - 1)))

/-- `trendFollowingPrediction(data, windowSize, threshold)`
(src/lib/ensembleEngine.js:153-171).  `data.slice(a, b)` is
`(data.drop a).take (b - a)`; `recentNumbers[0] - recentNumbers[length-1]`
is head minus last (slices are nonempty under the length guard for the
window sizes the engine uses, `windowSize ≥ 5`). -/
def trendFollowingPrediction (data : List DrawRecord) (windowSize : ℕ) (threshold : ℚ) :
    Outcome :=
  if data.length < windowSize + 1 then .BIG   -- Default
  else
    let recentNumbers := (data.take windowSize).map (·.number)
    let previousNumbers := ((data.drop windowSize).take windowSize).map (·.number)
    let recentAvg := jsMean recentNumbers
    let previousAvg := jsMean previousNumbers
    let trendStrength := JsNum.div (.fin (recentAvg - previousAvg)) (.fin previousAvg)
    if (trendStrength.abs.gtB (.fin threshold)) then
      if trendStrength.gtB (.fin 0) then .BIG else .SMALL
    else
      -- If weak trend, use momentum
      let momentum := recentNumbers.headD 0 - recentNumbers.getLastD 0
      if 0 < momentum then .BIG else .SMALL

/-- `meanReversionPrediction(data, lookback, deviation)`
(src/lib/ensembleEngine.js:173-190).  `math.std` throws on an empty slice
(the function has no length guard), modelled by `none`; when it succeeds the
slice is nonempty, so `numbers[0]` is its head. -/
def meanReversionPrediction (data : List DrawRecord) (lookback : ℕ) (deviation : ℚ) :
    Option Outcome :=
  let numbers := (data.take lookback).map (·.number)
  match mathStd numbers with
  | none => none
  | some std =>
      let mean := jsMean numbers
      let current := numbers.headD 0
      let zScore := JsNum.div (.fin (current - mean)) (.fin std)
      if zScore.gtB (.fin deviation) then some .SMALL        -- Expect reversion down
      else if zScore.ltB (.fin (-deviation)) then some .BIG  -- Expect reversion up
      else
        -- Near mean, follow short-term trend
        let shortTerm := numbers.take 3
        let shortAvg := jsMean shortTerm
        some (if mean ≤ shortAvg then .BIG else .SMALL)

/-- `patternsMatch(pattern1, pattern2)` (src/lib/ensembleEngine.js:218-224):
equal length and elementwise equality, i.e. list equality. -/
def patternsMatch (pattern1 pattern2 : List Outcome) : Bool :=
  decide (pattern1 = pattern2)

/-- One iteration of the pattern-scanning loop
(src/lib/ensembleEngine.js:201-209), accumulating `(bigPatterns, smallPatterns)`.
`data[i-1].outcome`: the source would throw for `i = 0` (index `-1` gives
`undefined`), which is reachable only for `patternLength = 0`; every engine
model has `patternLength ≥ 3`.  `none` models that throw. -/
def patternStep (data : List DrawRecord) (recentPattern : List Outcome)
    (patternLength : ℕ) (acc : Option (ℕ × ℕ)) (i : ℕ) : Option (ℕ × ℕ) :=
  acc.bind fun t =>
    let historicalPattern := ((data.drop i).take patternLength).map (·.outcome)
    if patternsMatch recentPattern historicalPattern then
      if i = 0 then none   -- data[-1] is undefined; reading .outcome throws
      else
        match (data.drop (i - 1)).head? with
        | some rec => some (if rec.outcome = .BIG then (t.1 + 1, t.2) else (t.1, t.2 + 1))
        | none => none     -- unreachable: i - 1 < data.length on the index range
    else some t

/-- `patternRecognitionPrediction(data, patternLength)`
(src/lib/ensembleEngine.js:192-216).  The loop runs `i` from `patternLength`
to `min(data.length, 50) - 1`. -/
def patternRecognitionPrediction (data : List DrawRecord) (patternLength : ℕ) :
    Option Outcome :=
  if data.length < patternLength * 2 then some .BIG
  else
    let recentPattern := (data.take patternLength).map (·.outcome)
    let idxs := (List.range (min data.length 50)).drop patternLength
    match idxs.foldl (patternStep data recentPattern patternLength) (some (0, 0)) with
    | none => none
    | some (bigPatterns, smallPatterns) =>
        if bigPatterns + smallPatterns = 0 then
          some (trendFollowingPrediction data 5 (3 / 10))
        else
          some (if smallPatterns < bigPatterns then .BIG else .SMALL)

/-- `calculateEMA(numbers, alpha)` (src/lib/ensembleEngine.js:251-257):
start from `numbers[0]`, fold `ema = alpha * n + (1 - alpha) * ema` over the
rest.  On an empty list the source yields `undefined`; the caller's comparison
with `undefined` is false either way, matching the `headD 0 > 0` comparison
at the (sole) call site below, so the empty case returns `0` here. -/
def calculateEMA (numbers : List ℚ) (alpha : ℚ) : ℚ :=
  match numbers with
  | [] => 0
  | n0 :: rest => rest.foldl (fun ema n => alpha * n + (1 - alpha) * ema) n0

/-- The gains/losses accumulation of `calculateRSI`
(src/lib/ensembleEngine.js:262-269): for `i = 1..period`,
`change = numbers[i-1] - numbers[i]`; positive changes add to gains,
other changes add `|change|` to losses. -/
def rsiGainsLosses (numbers : List ℚ) (period : ℕ) : ℚ × ℚ :=
  (List.range period).foldl
    (fun acc i =>
      let change := numbers.getD i 0 - numbers.getD (i + 1) 0
      if 0 < change then (acc.1 + change, acc.2) else (acc.1, acc.2 + |change|))
    (0, 0)

/-- `calculateRSI(numbers, period)` (src/lib/ensembleEngine.js:259-275).
`rs = avgGain / avgLoss` and `100 - 100 / (1 + rs)` follow IEEE-754:
`avgLoss = 0` with `avgGain > 0` gives `rs = Infinity` and RSI `100`;
`avgLoss = avgGain = 0` gives `rs = NaN` and RSI `NaN`. -/
def calculateRSI (numbers : List ℚ) (period : ℕ) : JsNum :=
  if numbers.length < period + 1 then .fin 50
  else
    let gl := rsiGainsLosses numbers period
    let avgGain := gl.1 / (period : ℚ)
    let avgLoss := gl.2 / (period : ℚ)
    let rs := JsNum.div (.fin avgGain) (.fin avgLoss)
    JsNum.sub (.fin 100) (JsNum.div (.fin 100) (JsNum.add (.fin 1) rs))

/-- `fibonacciLevel(numbers)` (src/lib/ensembleEngine.js:277-285).
On an empty list `Math.max()` is `-Infinity`, `Math.min()` is `Infinity` and
the position is `NaN`; otherwise the range-zero guard returns `0.5` and the
general case is finite. -/
def fibonacciLevel (numbers : List ℚ) : JsNum :=
  match numbers with
  | [] => .nan
  | n0 :: rest =>
      let high := rest.foldl max n0
      let low := rest.foldl min n0
      let range := high - low
      if range = 0 then .fin (1 / 2)
      else .fin ((n0 - low) / range)

/-- `bollingerPosition(numbers, period = 20, stdDev = 2)`
(src/lib/ensembleEngine.js:287-300).  `none` models the `math.std` throw on an
empty slice (reachable only for `period = 0`; the engine always passes 20). -/
def bollingerPosition (numbers : List ℚ) (period : ℕ) (stdDev : ℚ) : Option JsNum :=
  if numbers.length < period then some (.fin 0)
  else
    let slice := numbers.take period
    match mathStd slice with
    | none => none
    | some std =>
        let mean := jsMean slice
        let upperBand := mean + stdDev * std
        let lowerBand := mean - stdDev * std
        let current := numbers.headD 0
        if upperBand < current then some (.fin 1)        -- Above upper band
        else if current < lowerBand then some (.fin (-1)) -- Below lower band
        else some (JsNum.div (.fin (current - mean)) (.fin (upperBand - mean)))

/-- `statisticalPrediction(data, method)` (src/lib/ensembleEngine.js:226-249),
operating on the newest 20 numbers.  Method 0: EMA(α = 0.3); 1: RSI(14);
2: Fibonacci retracement; 3: Bollinger bands (propagating its possible
throw); anything else defaults to `BIG`. -/
def statisticalPrediction (data : List DrawRecord) (method : ℕ) : Option Outcome :=
  let numbers := (data.take 20).map (·.number)
  match method with
  | 0 => some (if calculateEMA numbers (3 / 10) < numbers.headD 0 then .BIG else .SMALL)
  | 1 => some (if (calculateRSI numbers 14).gtB (.fin 50) then .BIG else .SMALL)
  | 2 => some (if (fibonacciLevel numbers).gtB (.fin (1 / 2)) then .BIG else .SMALL)
  | 3 => (bollingerPosition numbers 20 2).map fun bbPosition =>
           if bbPosition.gtB (.fin 0) then .BIG else .SMALL
  | _ => some .BIG

/-- Trend direction reported by `analyzeTrend`. -/
inductive Direction where
  | UPWARD
  | DOWNWARD
  | NEUTRAL
deriving DecidableEq, Repr

/-- The `{direction, strength}` pair returned by `analyzeTrend`. -/
structure Trend where
  direction : Direction
  strength : JsNum
deriving DecidableEq, Repr

/-- `analyzeTrend(numbers)` (src/lib/ensembleEngine.js:302-321): compare
5/15/30-sample means, divide by the long mean, and report the absolute value
of the strength. -/
def analyzeTrend (numbers : List ℚ) : Trend :=
  if numbers.length < 10 then ⟨.NEUTRAL, .fin 0⟩
  else
    let shortTerm := jsMean (numbers.take 5)
    let mediumTerm := jsMean (numbers.take 15)
    let longTerm := jsMean (numbers.take 30)
    if mediumTerm < shortTerm ∧ longTerm < mediumTerm then
      ⟨.UPWARD, (JsNum.div (.fin (shortTerm - longTerm)) (.fin longTerm)).abs⟩
    else if shortTerm < mediumTerm ∧ mediumTerm < longTerm then
      ⟨.DOWNWARD, (JsNum.div (.fin (longTerm - shortTerm)) (.fin longTerm)).abs⟩
    else
      ⟨.NEUTRAL, (JsNum.fin 0).abs⟩

/-- Stake level reported by `calculateStake`. -/
inductive StakeLevel where
  | HIGH_CONFIDENCE
  | MEDIUM
  | LOW
deriving DecidableEq, Repr

/-- Risk tier reported by `calculateStake`. -/
inductive Risk where
  | LOW
  | MEDIUM
  | HIGH
deriving DecidableEq, Repr

/-- The stake suggestion; `amount` is the number the source formats with
`toFixed(2)`. -/
structure Stake where
  amount : JsNum
  level : StakeLevel
  risk : Risk
deriving DecidableEq, Repr

/-- `calculateStake(confidence, trendStrength)`
(src/lib/ensembleEngine.js:323-339). -/
def calculateStake (confidence trendStrength : JsNum) : Stake :=
  let baseStake : JsNum := .fin 1
  let confidenceMultiplier := JsNum.div confidence (.fin 100)
  let trendMultiplier := JsNum.add (.fin 1) (JsNum.mul trendStrength (.fin 2))
  let stake := JsNum.mul (JsNum.mul baseStake confidenceMultiplier) trendMultiplier
  if confidence.gtB (.fin 75) && trendStrength.gtB (.fin (1 / 10)) then
    ⟨stake, .HIGH_CONFIDENCE, .LOW⟩
  else if confidence.gtB (.fin 65) then
    ⟨JsNum.mul stake (.fin (7 / 10)), .MEDIUM, .MEDIUM⟩
  else
    ⟨JsNum.mul stake (.fin (3 / 10)), .LOW, .HIGH⟩

/-- The `type` tag of a model (string field in the source). -/
inductive ModelType where
  | TREND_FOLLOWING
  | MEAN_REVERSION
  | PATTERN_RECOGNITION
  | STATISTICAL
deriving DecidableEq, Repr

/-- The family-specific parameters a model's `predict` closure captures,
together with which prediction function it calls.  (The spec's design notes
map the source's per-model closures to exactly this tagged-variant dispatch.) -/
inductive ModelKind where
  | trend (window : ℕ) (threshold : ℚ)
  | meanRev (lookback : ℕ) (deviation : ℚ)
  | pattern (patternLength : ℕ)
  | statistical (method : ℕ)
deriving DecidableEq, Repr

/-- One micro-model of the population: `{type, id, weight, …params, predict}`. -/
structure Model where
  type : ModelType
  id : String
  weight : ℚ
  kind : ModelKind
deriving DecidableEq, Repr

/-- `createTrendModels(count)` (src/lib/ensembleEngine.js:27-42):
window `5 + (i % 15)`, threshold `0.5 + 0.01·i`, weight `0.4 / count`. -/
def createTrendModels (count : ℕ) : List Model :=
  (List.range count).map fun i =>
    { type := .TREND_FOLLOWING
      id := s!"TREND_{i}"
      weight := (2 / 5) / (count : ℚ)
      kind := .trend (5 + i % 15) (1 / 2 + (i : ℚ) * (1 / 100)) }

/-- `createMeanReversionModels(count)` (src/lib/ensembleEngine.js:44-59):
lookback `10 + (i % 20)`, deviation `1.0 + 0.05·i`, weight `0.25 / count`. -/
def createMeanReversionModels (count : ℕ) : List Model :=
  (List.range count).map fun i =>
    { type := .MEAN_REVERSION
      id := s!"MR_{i}"
      weight := (1 / 4) / (count : ℚ)
      kind := .meanRev (10 + i % 20) (1 + (i : ℚ) * (1 / 20)) }

/-- `createPatternModels(count)` (src/lib/ensembleEngine.js:61-76):
pattern length `3 + (i % 7)`, weight `0.2 / count`.  (The per-model
`confidence` field is never read.) -/
def createPatternModels (count : ℕ) : List Model :=
  (List.range count).map fun i =>
    { type := .PATTERN_RECOGNITION
      id := s!"PATTERN_{i}"
      weight := (1 / 5) / (count : ℚ)
      kind := .pattern (3 + i % 7) }

/-- `createStatisticalModels(count)` (src/lib/ensembleEngine.js:78-91):
method `i % 4`, weight `0.15 / count`. -/
def createStatisticalModels (count : ℕ) : List Model :=
  (List.range count).map fun i =>
    { type := .STATISTICAL
      id := s!"STAT_{i}"
      weight := (3 / 20) / (count : ℚ)
      kind := .statistical (i % 4) }

/-- `initializeModels()` (src/lib/ensembleEngine.js:10-25): 48 trend, 30
mean-reversion, 24 pattern and 18 statistical models. -/
def initializeModels : List Model :=
  createTrendModels 48 ++ createMeanReversionModels 30 ++
    createPatternModels 24 ++ createStatisticalModels 18

/-- `this.models` of the engine, fixed at construction. -/
def models : List Model := initializeModels

/-- Dispatch of a model's `predict` closure on its captured parameters. -/
def Model.predict (m : Model) (data : List DrawRecord) : Option Outcome :=
  match m.kind with
  | .trend w θ => some (trendFollowingPrediction data w θ)
  | .meanRev l d => meanReversionPrediction data l d
  | .pattern p => patternRecognitionPrediction data p
  | .statistical meth => statisticalPrediction data meth

/-- One entry of the `predictions` array built by `Promise.all`
(src/lib/ensembleEngine.js:99-106); the unread `type` field is dropped. -/
structure Prediction where
  modelId : String
  prediction : Outcome
  weight : ℚ
deriving DecidableEq, Repr

/-- `Promise.all(this.models.map(...))` (src/lib/ensembleEngine.js:99-106):
evaluate every model in order; the whole call rejects (`none`) as soon as any
model's promise rejects. -/
def runModels (ms : List Model) (data : List DrawRecord) : Option (List Prediction) :=
  match ms with
  | [] => some []
  | m :: rest =>
      match m.predict data with
      | none => none
      | some o =>
          match runModels rest data with
          | none => none
          | some ps => some (⟨m.id, o, m.weight⟩ :: ps)

/-- The weighted-vote accumulation (src/lib/ensembleEngine.js:109-124):
`bigVotes += weight` / `smallVotes += weight` per prediction.  The
`if/else if` on `'BIG'`/`'SMALL'` is exhaustive because every prediction
function returns one of the two strings. -/
def tallyVotes (ps : List Prediction) : ℚ × ℚ :=
  ps.foldl
    (fun acc p =>
      match p.prediction with
      | .BIG => (acc.1 + p.weight, acc.2)
      | .SMALL => (acc.1, acc.2 + p.weight))
    (0, 0)

/-- `Math.max(bigVotes, smallVotes) / totalVotes * 100`
(src/lib/ensembleEngine.js:127-128), with IEEE-754 division: a zero total
would give `NaN`, there is no guard. -/
def computeConfidence (bigVotes smallVotes : ℚ) : JsNum :=
  JsNum.mul (JsNum.div (.fin (max bigVotes smallVotes)) (.fin (bigVotes + smallVotes)))
    (.fin 100)

/-- The `modelBreakdown` object (src/lib/ensembleEngine.js:145-149);
`bigVotes`/`smallVotes` hold the numbers formatted as
`(x * 100).toFixed(2) + '%'`. -/
structure ModelBreakdown where
  bigVotes : ℚ
  smallVotes : ℚ
  activeModels : ℕ
deriving DecidableEq, Repr

/-- The prediction object returned by `predictNextOutcome`
(src/lib/ensembleEngine.js:137-150).  `confidence` is the number formatted by
`toFixed(2)`; `nextIssueTime` (wall clock + 60 s) is outside the pure model. -/
structure PredictionResult where
  outcome : Outcome
  confidence : JsNum
  modelCount : ℕ
  trendDirection : Direction
  trendStrength : JsNum
  suggestedStake : Stake
  modelBreakdown : ModelBreakdown
deriving DecidableEq, Repr

/-- `predictNextOutcome(historicalData)` (src/lib/ensembleEngine.js:93-151).
The `numbers` projection computed at line 95 is inlined at its only use
(the `analyzeTrend` call); the `outcomes` projection of line 96 is never
read and is omitted. -/
def predictNextOutcome (historicalData : List DrawRecord) : Option PredictionResult :=
  (runModels models historicalData).map fun predictions =>
      let votes := tallyVotes predictions
      let bigVotes := votes.1
      let smallVotes := votes.2
      let confidence := computeConfidence bigVotes smallVotes
      let outcome := if smallVotes < bigVotes then Outcome.BIG else Outcome.SMALL
      let trend := analyzeTrend (historicalData.map (·.number))
      let suggestedStake := calculateStake confidence trend.strength
      { outcome := outcome
        confidence := confidence
        modelCount := models.length
        trendDirection := trend.direction
        trendStrength := trend.strength
        suggestedStake := suggestedStake
        modelBreakdown :=
          { bigVotes := bigVotes * 100
            smallVotes := smallVotes * 100
            activeModels := predictions.length } }

/-! ## Basic lemmas about means and the standard deviation -/

lemma jsMean_const {xs : List ℚ} {c : ℚ} (hc : ∀ x ∈ xs, x = c) (hne : xs ≠ []) :
    jsMean xs = c := by
  have hlen : (xs.length : ℚ) ≠ 0 := by
    have := List.length_pos.mpr hne
    exact_mod_cast this.ne'
  unfold jsMean
  rw [List.sum_eq_card_nsmul xs c hc, nsmul_eq_mul]
  field_simp

lemma mul_length_lt_sum {xs : List ℚ} {c : ℚ} (h : ∀ x ∈ xs, c < x) (hne : xs ≠ []) :
    c * xs.length < xs.sum := by
  induction xs with
  | nil => exact absurd rfl hne
  | cons x t ih =>
      rcases eq_or_ne t [] with ht | ht
      · subst ht; simpa using h x (by simp)
      · have hrec := ih (fun y hy => h y (by simp [hy])) ht
        have hx := h x (by simp)
        simp only [List.sum_cons, List.length_cons]
        push_cast
        linarith

lemma sum_le_mul_length {xs : List ℚ} {c : ℚ} (h : ∀ x ∈ xs, x ≤ c) (hne : xs ≠ []) :
    xs.sum ≤ c * xs.length := by
  induction xs with
  | nil => exact absurd rfl hne
  | cons x t ih =>
      rcases eq_or_ne t [] with ht | ht
      · subst ht; simpa using h x (by simp)
      · have hrec := ih (fun y hy => h y (by simp [hy])) ht
        have hx := h x (by simp)
        simp only [List.sum_cons, List.length_cons]
        push_cast
        linarith

lemma lt_jsMean_of_forall_lt {xs : List ℚ} {c : ℚ} (h : ∀ x ∈ xs, c < x) (hne : xs ≠ []) :
    c < jsMean xs := by
  have hpos : 0 < (xs.length : ℚ) := by exact_mod_cast List.length_pos.mpr hne
  rw [jsMean, lt_div_iff₀ hpos]
  have := mul_length_lt_sum h hne
  linarith

lemma jsMean_le_of_forall_le {xs : List ℚ} {c : ℚ} (h : ∀ x ∈ xs, x ≤ c) (hne : xs ≠ []) :
    jsMean xs ≤ c := by
  have hpos : 0 < (xs.length : ℚ) := by exact_mod_cast List.length_pos.mpr hne
  rw [jsMean, div_le_iff₀ hpos]
  have := sum_le_mul_length h hne
  linarith

lemma headD_eq_of_forall {xs : List ℚ} {c : ℚ} (hc : ∀ x ∈ xs, x = c) (hne : xs ≠ []) :
    xs.headD 0 = c := by
  cases xs with
  | nil => exact absurd rfl hne
  | cons x t => simpa using hc x (by simp)

lemma jsMean_pos {xs : List ℚ} (h0 : ∀ x ∈ xs, 0 ≤ x) (hex : ∃ x ∈ xs, 0 < x) :
    0 < jsMean xs := by
  obtain ⟨x, hx, hxpos⟩ := hex
  have hne : xs ≠ [] := List.ne_nil_of_mem hx
  have hpos : 0 < (xs.length : ℚ) := by exact_mod_cast List.length_pos.mpr hne
  have hsum : x ≤ xs.sum := List.single_le_sum h0 x hx
  exact div_pos (lt_of_lt_of_le hxpos hsum) hpos

lemma mathStd_isSome {xs : List ℚ} (hne : xs ≠ []) : (mathStd xs).isSome := by
  match xs with
  | [] => exact absurd rfl hne
  | [x] => simp [mathStd]
  | x :: y :: t => simp [mathStd]

lemma mathStd_const {xs : List ℚ} {c : ℚ} (hc : ∀ x ∈ xs, x = c) (hne : xs ≠ []) :
    mathStd xs = some 0 := by
  match xs with
  | [] => exact absurd rfl hne
  | [x] => simp [mathStd]
  | x :: y :: t =>
      have hmean : jsMean (x :: y :: t) = c := jsMean_const hc (by simp)
      have hzero : ((x :: y :: t).map (fun z => (z - jsMean (x :: y :: t)) ^ 2)).sum = 0 := by
        apply List.sum_eq_zero
        intro z hz
        simp only [List.mem_map] at hz
        obtain ⟨w, hw, rfl⟩ := hz
        rw [hmean, hc w hw]
        ring
      simp only [mathStd, hzero, zero_div]
      norm_num [ratSqrt]

/-! ## Per-family prediction lemmas -/

lemma trendFollowingPrediction_short {data : List DrawRecord} {w : ℕ} {θ : ℚ}
    (h : data.length < w + 1) : trendFollowingPrediction data w θ = .BIG := by
  rw [trendFollowingPrediction, if_pos h]

lemma meanReversionPrediction_isSome {data : List DrawRecord} {l : ℕ} {d : ℚ}
    (hl : 1 ≤ l) (hne : data ≠ []) : (meanReversionPrediction data l d).isSome := by
  have hnum : (data.take l).map (·.number) ≠ [] := by
    simp only [ne_eq, List.map_eq_nil_iff, List.take_eq_nil_iff]
    push_neg
    exact ⟨by omega, hne⟩
  obtain ⟨s, hs⟩ := Option.isSome_iff_exists.mp (mathStd_isSome hnum)
  simp only [meanReversionPrediction, hs]
  split
  · simp
  · split <;> simp

/-- On a history whose numbers (in the first `lookback` records) are all equal,
mean reversion hits the `std = 0` path: the z-score is `0/0 = NaN`, both
deviation comparisons are false, and the short-term-average fallback compares
`c ≥ c`, voting `BIG`. -/
lemma meanReversionPrediction_flat {data : List DrawRecord} {l : ℕ} {d c : ℚ}
    (hl : 1 ≤ l) (hdata : data ≠ [])
    (hc : ∀ r ∈ data, r.number = c) :
    meanReversionPrediction data l d = some .BIG := by
  set numbers := (data.take l).map (·.number) with hnums
  have hcn : ∀ x ∈ numbers, x = c := by
    intro x hx
    simp only [hnums, List.mem_map] at hx
    obtain ⟨r, hr, rfl⟩ := hx
    exact hc r (List.mem_of_mem_take hr)
  have hne : numbers ≠ [] := by
    simp only [hnums, ne_eq, List.map_eq_nil_iff, List.take_eq_nil_iff]
    push_neg
    exact ⟨by omega, hdata⟩
  have hmean : jsMean numbers = c := jsMean_const hcn hne
  have hcur : numbers.headD 0 = c := headD_eq_of_forall hcn hne
  have hshort : jsMean (numbers.take 3) = c := by
    refine jsMean_const (fun x hx => hcn x (List.mem_of_mem_take hx)) ?_
    simp only [ne_eq, List.take_eq_nil_iff]
    push_neg
    exact ⟨by omega, hne⟩
  simp only [meanReversionPrediction, ← hnums, mathStd_const hcn hne]
  simp only [hmean, hcur, sub_self]
  norm_num [JsNum.div, JsNum.gtB, JsNum.ltB, hshort]

lemma patternRecognitionPrediction_short {data : List DrawRecord} {p : ℕ}
    (h : data.length < p * 2) : patternRecognitionPrediction data p = some .BIG := by
  rw [patternRecognitionPrediction, if_pos h]

lemma patternFold_isSome {data : List DrawRecord} {recent : List Outcome} {p : ℕ}
    (l : List ℕ) (hl : ∀ i ∈ l, 1 ≤ i ∧ i ≤ data.length) :
    ∀ t : ℕ × ℕ, (l.foldl (patternStep data recent p) (some t)).isSome := by
  induction l with
  | nil => intro t; simp
  | cons i rest ih =>
      intro t
      obtain ⟨hi1, hi2⟩ := hl i (by simp)
      have hhead : ((data.drop (i - 1)).head?).isSome := by
        rw [List.head?_isSome]
        simp only [ne_eq, List.drop_eq_nil_iff]
        omega
      have hrest : ∀ j ∈ rest, 1 ≤ j ∧ j ≤ data.length := fun j hj => hl j (by simp [hj])
      rw [List.foldl_cons]
      obtain ⟨r, hr⟩ := Option.isSome_iff_exists.mp hhead
      have hstep : ∃ t' : ℕ × ℕ, patternStep data recent p (some t) i = some t' := by
        simp only [patternStep, Option.some_bind]
        by_cases hm :
            patternsMatch recent (((data.drop i).take p).map (·.outcome)) = true
        · rw [if_pos hm, if_neg (by omega : ¬ i = 0), hr]
          exact ⟨_, rfl⟩
        · rw [if_neg hm]
          exact ⟨t, rfl⟩
      obtain ⟨t', ht'⟩ := hstep
      rw [ht']
      exact ih hrest t'

lemma patternRecognitionPrediction_isSome {data : List DrawRecord} {p : ℕ}
    (hp : 1 ≤ p) : (patternRecognitionPrediction data p).isSome := by
  have hidx : ∀ i ∈ (List.range (min data.length 50)).drop p,
      1 ≤ i ∧ i ≤ data.length := by
    intro i hi
    have hmem := List.mem_of_mem_drop hi
    have hlt := List.mem_range.mp hmem
    have hge : p ≤ i := by
      obtain ⟨k, hk, hik⟩ := List.mem_iff_getElem.mp hi
      simp only [List.getElem_drop, List.getElem_range] at hik
      omega
    have := Nat.min_le_left data.length 50
    omega
  have hfold := @patternFold_isSome data ((data.take p).map (·.outcome)) p
    ((List.range (min data.length 50)).drop p) hidx (0, 0)
  obtain ⟨t, ht⟩ := Option.isSome_iff_exists.mp hfold
  simp only [patternRecognitionPrediction]
  split
  · simp
  · rw [ht]
    obtain ⟨a, b⟩ := t
    by_cases hz : a + b = 0 <;> simp [hz]

lemma bollingerPosition_isSome (numbers : List ℚ) (stdDev : ℚ) :
    (bollingerPosition numbers 20 stdDev).isSome := by
  by_cases hlen : numbers.length < 20
  · simp only [bollingerPosition, if_pos hlen]
    simp
  · have hne : numbers.take 20 ≠ [] := by
      simp only [ne_eq, List.take_eq_nil_iff]
      push_neg
      refine ⟨by omega, ?_⟩
      intro h
      subst h
      simp at hlen
    obtain ⟨s, hs⟩ := Option.isSome_iff_exists.mp (mathStd_isSome hne)
    simp only [bollingerPosition, if_neg hlen, hs]
    split
    · simp
    · split <;> simp

lemma statisticalPrediction_isSome (data : List DrawRecord) (meth : ℕ) :
    (statisticalPrediction data meth).isSome := by
  rcases meth with _ | _ | _ | _ | n
  · simp [statisticalPrediction]
  · simp [statisticalPrediction]
  · simp [statisticalPrediction]
  · obtain ⟨v, hv⟩ := Option.isSome_iff_exists.mp
      (bollingerPosition_isSome ((data.take 20).map (·.number)) 2)
    simp only [statisticalPrediction, hv]
    simp
  · simp [statisticalPrediction]

/-! ## Lemmas about the model population and the aggregation pipeline -/

lemma models_predict_isSome {data : List DrawRecord} (hne : data ≠ []) :
    ∀ m ∈ models, (m.predict data).isSome := by
  intro m hm
  simp only [models, initializeModels, List.mem_append, createTrendModels,
    createMeanReversionModels, createPatternModels, createStatisticalModels,
    List.mem_map, List.mem_range] at hm
  rcases hm with ((⟨i, hi, rfl⟩ | ⟨i, hi, rfl⟩) | ⟨i, hi, rfl⟩) | ⟨i, hi, rfl⟩
  · simp [Model.predict]
  · simp only [Model.predict]
    exact meanReversionPrediction_isSome (by omega) hne
  · simp only [Model.predict]
    exact patternRecognitionPrediction_isSome (by omega)
  · simp only [Model.predict]
    exact statisticalPrediction_isSome data _

lemma models_weight_pos : ∀ m ∈ models, 0 < m.weight := by
  intro m hm
  simp only [models, initializeModels, List.mem_append, createTrendModels,
    createMeanReversionModels, createPatternModels, createStatisticalModels,
    List.mem_map, List.mem_range] at hm
  rcases hm with ((⟨i, hi, rfl⟩ | ⟨i, hi, rfl⟩) | ⟨i, hi, rfl⟩) | ⟨i, hi, rfl⟩ <;> norm_num

lemma sum_map_const_range (n : ℕ) (c : ℚ) :
    ((List.range n).map (fun _ => c)).sum = n * c := by
  induction n with
  | zero => simp
  | succ k ih => rw [List.range_succ]; simp [ih]; ring

lemma models_weight_sum : (models.map (·.weight)).sum = 1 := by
  simp only [models, initializeModels, List.map_append, List.sum_append,
    createTrendModels, createMeanReversionModels, createPatternModels,
    createStatisticalModels, List.map_map, Function.comp_def]
  rw [sum_map_const_range, sum_map_const_range, sum_map_const_range, sum_map_const_range]
  norm_num

lemma runModels_weights {ms : List Model} {data : List DrawRecord} {ps : List Prediction}
    (h : runModels ms data = some ps) : ps.map (·.weight) = ms.map (·.weight) := by
  induction ms generalizing ps with
  | nil =>
      simp only [runModels] at h
      cases h
      simp
  | cons m rest ih =>
      simp only [runModels] at h
      cases hp : m.predict data with
      | none => rw [hp] at h; cases h
      | some o =>
          rw [hp] at h
          cases hr : runModels rest data with
          | none => rw [hr] at h; cases h
          | some ps' =>
              rw [hr] at h
              cases h
              simp [ih hr]

lemma runModels_isSome {ms : List Model} {data : List DrawRecord}
    (h : ∀ m ∈ ms, (m.predict data).isSome) : (runModels ms data).isSome := by
  induction ms with
  | nil => simp [runModels]
  | cons m rest ih =>
      obtain ⟨o, ho⟩ := Option.isSome_iff_exists.mp (h m (by simp))
      obtain ⟨ps, hps⟩ := Option.isSome_iff_exists.mp (ih (fun x hx => h x (by simp [hx])))
      simp [runModels, ho, hps]

lemma runModels_eq_none {ms : List Model} {data : List DrawRecord}
    (h : ∃ m ∈ ms, m.predict data = none) : runModels ms data = none := by
  induction ms with
  | nil => simp at h
  | cons m rest ih =>
      obtain ⟨m', hm', hnone⟩ := h
      rcases List.mem_cons.mp hm' with rfl | hmem
      · simp [runModels, hnone]
      · simp only [runModels]
        cases hp : m.predict data with
        | none => rfl
        | some o => rw [ih ⟨m', hmem, hnone⟩]

lemma runModels_eq_map {ms : List Model} {data : List DrawRecord} (g : Model → Outcome)
    (h : ∀ m ∈ ms, m.predict data = some (g m)) :
    runModels ms data = some (ms.map (fun m => ⟨m.id, g m, m.weight⟩)) := by
  induction ms with
  | nil => simp [runModels]
  | cons m rest ih =>
      have hrest := ih (fun x hx => h x (by simp [hx]))
      simp [runModels, h m (by simp), hrest]

lemma tallyVotes_aux (ps : List Prediction) (a b : ℚ) :
    ps.foldl
      (fun acc p =>
        match p.prediction with
        | .BIG => (acc.1 + p.weight, acc.2)
        | .SMALL => (acc.1, acc.2 + p.weight)) (a, b) =
    (a + ((ps.filter (fun p => p.prediction = .BIG)).map (·.weight)).sum,
     b + ((ps.filter (fun p => p.prediction = .SMALL)).map (·.weight)).sum) := by
  induction ps generalizing a b with
  | nil => simp
  | cons p t ih =>
      cases hp : p.prediction <;>
        simp [List.filter_cons, hp, ih, add_assoc, add_comm, add_left_comm]

lemma tallyVotes_eq (ps : List Prediction) :
    tallyVotes ps =
      (((ps.filter (fun p => p.prediction = .BIG)).map (·.weight)).sum,
       ((ps.filter (fun p => p.prediction = .SMALL)).map (·.weight)).sum) := by
  have := tallyVotes_aux ps 0 0
  simpa [tallyVotes] using this

lemma filter_weight_sum_split (ps : List Prediction) :
    ((ps.filter (fun p => p.prediction = .BIG)).map (·.weight)).sum +
      ((ps.filter (fun p => p.prediction = .SMALL)).map (·.weight)).sum
      = (ps.map (·.weight)).sum := by
  induction ps with
  | nil => simp
  | cons p t ih =>
      cases hp : p.prediction <;> simp [List.filter_cons, hp] <;> linarith

lemma tallyVotes_sum (ps : List Prediction) :
    (tallyVotes ps).1 + (tallyVotes ps).2 = (ps.map (·.weight)).sum := by
  rw [tallyVotes_eq]
  exact filter_weight_sum_split ps

lemma tallyVotes_nonneg {ps : List Prediction} (h : ∀ p ∈ ps, 0 ≤ p.weight) :
    0 ≤ (tallyVotes ps).1 ∧ 0 ≤ (tallyVotes ps).2 := by
  rw [tallyVotes_eq]
  constructor <;>
  · apply List.sum_nonneg
    intro x hx
    simp only [List.mem_map, List.mem_filter] at hx
    obtain ⟨p, ⟨hp, _⟩, rfl⟩ := hx
    exact h p hp

lemma models_length : models.length = 120 := by
  simp [models, initializeModels, createTrendModels, createMeanReversionModels,
    createPatternModels, createStatisticalModels]

lemma predictNextOutcome_isSome {h : List DrawRecord} (hne : h ≠ []) :
    (predictNextOutcome h).isSome := by
  obtain ⟨ps, hps⟩ :=
    Option.isSome_iff_exists.mp (runModels_isSome (models_predict_isSome hne))
  rw [predictNextOutcome, hps, Option.map_some']
  rfl

lemma predictNextOutcome_some {h : List DrawRecord} {r : PredictionResult}
    (hr : predictNextOutcome h = some r) :
    ∃ ps, runModels models h = some ps ∧
      r = { outcome := if (tallyVotes ps).2 < (tallyVotes ps).1 then .BIG else .SMALL
            confidence := computeConfidence (tallyVotes ps).1 (tallyVotes ps).2
            modelCount := models.length
            trendDirection := (analyzeTrend (h.map (·.number))).direction
            trendStrength := (analyzeTrend (h.map (·.number))).strength
            suggestedStake :=
              calculateStake (computeConfidence (tallyVotes ps).1 (tallyVotes ps).2)
                (analyzeTrend (h.map (·.number))).strength
            modelBreakdown :=
              ⟨(tallyVotes ps).1 * 100, (tallyVotes ps).2 * 100, ps.length⟩ } := by
  rw [predictNextOutcome] at hr
  cases hrun : runModels models h with
  | none => rw [hrun] at hr; cases hr
  | some ps =>
      refine ⟨ps, rfl, ?_⟩
      rw [hrun, Option.map_some', Option.some_inj] at hr
      exact hr.symm

lemma ps_weight_nonneg {h : List DrawRecord} {ps : List Prediction}
    (hps : runModels models h = some ps) : ∀ p ∈ ps, 0 ≤ p.weight := by
  intro p hp
  have hw : p.weight ∈ ps.map (·.weight) := List.mem_map_of_mem _ hp
  rw [runModels_weights hps] at hw
  obtain ⟨m, hm, hmw⟩ := List.mem_map.mp hw
  exact hmw ▸ (models_weight_pos m hm).le

lemma ps_weight_sum {h : List DrawRecord} {ps : List Prediction}
    (hps : runModels models h = some ps) :
    (tallyVotes ps).1 + (tallyVotes ps).2 = 1 := by
  rw [tallyVotes_sum, runModels_weights hps, models_weight_sum]

lemma ps_length {h : List DrawRecord} {ps : List Prediction}
    (hps : runModels models h = some ps) : ps.length = 120 := by
  have hlen := congrArg List.length (runModels_weights hps)
  simpa [models_length] using hlen

lemma computeConfidence_of_sum_one {b s : ℚ} (hsum : b + s = 1) :
    computeConfidence b s = .fin (max b s * 100) := by
  rw [computeConfidence, hsum]
  norm_num [JsNum.div, JsNum.mul]

/-! ## Evaluation on single-record histories

On a one-record history every trend, mean-reversion and pattern model votes
`BIG` (insufficient-history defaults and the flat z-score fallback), every
statistical model votes `SMALL`, so `bigVotes = 102/120`,
`smallVotes = 18/120` and the confidence is `85`. -/

lemma statisticalPrediction_single (r : DrawRecord) {meth : ℕ} (hm : meth < 4) :
    statisticalPrediction [r] meth = some .SMALL := by
  interval_cases meth
  · norm_num [statisticalPrediction, calculateEMA]
  · norm_num [statisticalPrediction, calculateRSI, JsNum.gtB, JsNum.ltB]
  · norm_num [statisticalPrediction, fibonacciLevel, JsNum.gtB, JsNum.ltB]
  · norm_num [statisticalPrediction, bollingerPosition, JsNum.gtB, JsNum.ltB]

lemma models_predict_single (s : String) (c : ℚ) (o : Outcome) :
    ∀ m ∈ models, m.predict [⟨s, c, o⟩] =
      some (match m.type with | .STATISTICAL => .SMALL | _ => .BIG) := by
  intro m hm
  simp only [models, initializeModels, List.mem_append, createTrendModels,
    createMeanReversionModels, createPatternModels, createStatisticalModels,
    List.mem_map, List.mem_range] at hm
  rcases hm with ((⟨i, hi, rfl⟩ | ⟨i, hi, rfl⟩) | ⟨i, hi, rfl⟩) | ⟨i, hi, rfl⟩
  · simp only [Model.predict]
    rw [trendFollowingPrediction_short (by simp only [List.length_singleton]; omega)]
  · simp only [Model.predict]
    rw [@meanReversionPrediction_flat [⟨s, c, o⟩] (10 + i % 20)
      (1 + (i : ℚ) * (1 / 20)) c (by omega) (by simp)
      (fun r hr => by rw [List.mem_singleton.mp hr])]
  · simp only [Model.predict]
    rw [patternRecognitionPrediction_short (by simp only [List.length_singleton]; omega)]
  · simp only [Model.predict]
    rw [statisticalPrediction_single _ (Nat.mod_lt i (by omega))]

lemma runModels_single (s : String) (c : ℚ) (o : Outcome) :
    runModels models [⟨s, c, o⟩] =
      some (models.map fun m =>
        ⟨m.id, (match m.type with | .STATISTICAL => .SMALL | _ => .BIG), m.weight⟩) :=
  runModels_eq_map _ (models_predict_single s c o)

lemma tallyVotes_single :
    tallyVotes (models.map fun m =>
        ⟨m.id, (match m.type with | .STATISTICAL => .SMALL | _ => .BIG), m.weight⟩) =
      (17 / 20, 3 / 20) := by
  rw [tallyVotes_eq]
  simp only [models, initializeModels, List.map_append, List.filter_append,
    List.sum_append, createTrendModels, createMeanReversionModels,
    createPatternModels, createStatisticalModels, List.map_map, Function.comp_def,
    List.filter_map]
  norm_num [sum_map_const_range]
  simp

/-- Full evaluation of the engine on a one-record history: outcome `BIG` with
confidence `85`, neutral trend, tier `MEDIUM` stake `0.595`, vote shares
85 % / 15 %. -/
lemma predictNextOutcome_single (s : String) (c : ℚ) (o : Outcome) :
    predictNextOutcome [⟨s, c, o⟩] = some
      { outcome := .BIG
        confidence := .fin 85
        modelCount := 120
        trendDirection := .NEUTRAL
        trendStrength := .fin 0
        suggestedStake := ⟨.fin (119 / 200), .MEDIUM, .MEDIUM⟩
        modelBreakdown := ⟨85, 15, 120⟩ } := by
  rw [predictNextOutcome, runModels_single, Option.map_some']
  simp only [tallyVotes_single]
  norm_num [analyzeTrend, computeConfidence, calculateStake, JsNum.div, JsNum.mul,
    JsNum.add, JsNum.neg, JsNum.gtB, JsNum.ltB, models_length, List.length_map]

/-! ## Claim theorems -/

/-- **C1, counterexample.**  The claim says `predictNextOutcome` never raises
for any well-formed sequence *including the empty one*.  It is false: on the
empty history every mean-reversion model calls `math.std` on an empty slice,
which throws, and `Promise.all` rejects — modelled by `none`. -/
theorem C1_counterexample : predictNextOutcome [] = none := by
  have hnone : runModels models [] = none := by
    apply runModels_eq_none
    simp only [models, initializeModels, List.mem_append]
    refine ⟨_, Or.inl (Or.inl (Or.inr (List.mem_map.mpr ⟨0, by simp, rfl⟩))), ?_⟩
    simp [Model.predict, meanReversionPrediction, mathStd]
  rw [predictNextOutcome, hnone, Option.map_none']

/-- **C1, amended.**  For every *nonempty* well-formed DrawRecord sequence —
in particular every sequence shorter than 50 — `predictNextOutcome` completes
without raising: every per-model edge case (insufficient history, zero
variance, zero range) resolves to a defined BIG or SMALL default vote.  Only
the empty sequence raises (via `math.std` of an empty slice). -/
theorem C1_theorem (h : List DrawRecord) (hne : h ≠ []) :
    (predictNextOutcome h).isSome :=
  predictNextOutcome_isSome hne

/-- Witness for C1: a concrete one-record history. -/
theorem C1_witness :
    (([⟨"w1", 42, .SMALL⟩] : List DrawRecord) ≠ []) ∧
      (predictNextOutcome [⟨"w1", 42, .SMALL⟩]).isSome :=
  ⟨by simp, C1_theorem [⟨"w1", 42, .SMALL⟩] (by simp)⟩

/-- **C2.**  Whenever the engine returns a result, the outcome is the enum
value `BIG` exactly when the accumulated big votes strictly exceed the small
votes (as reported in `modelBreakdown`), and a tie yields `SMALL` — the
source's strict `>` favors `BIG` only when strictly greater. -/
theorem C2_theorem (h : List DrawRecord) (r : PredictionResult)
    (hr : predictNextOutcome h = some r) :
    (r.outcome = .BIG ↔ r.modelBreakdown.smallVotes < r.modelBreakdown.bigVotes) ∧
      (r.modelBreakdown.bigVotes = r.modelBreakdown.smallVotes →
        r.outcome = .SMALL) := by
  obtain ⟨ps, hps, rfl⟩ := predictNextOutcome_some hr
  have h100 : (tallyVotes ps).2 * 100 < (tallyVotes ps).1 * 100 ↔
      (tallyVotes ps).2 < (tallyVotes ps).1 := by
    constructor <;> intro <;> nlinarith
  constructor
  · dsimp only
    by_cases hc : (tallyVotes ps).2 < (tallyVotes ps).1
    · simp [hc, h100]
    · simp [hc, h100]
  · intro heq
    dsimp only at heq ⊢
    have hle : (tallyVotes ps).1 = (tallyVotes ps).2 := by linarith
    simp [hle, lt_irrefl]

/-- The one-record history and result used as the C2 witness. -/
def c2hist : List DrawRecord := [⟨"w2", 50, .BIG⟩]

/-- The result the engine produces on `c2hist`. -/
def c2res : PredictionResult :=
  { outcome := .BIG
    confidence := .fin 85
    modelCount := 120
    trendDirection := .NEUTRAL
    trendStrength := .fin 0
    suggestedStake := ⟨.fin (119 / 200), .MEDIUM, .MEDIUM⟩
    modelBreakdown := ⟨85, 15, 120⟩ }

/-- Witness for C2: the engine run through on a concrete history. -/
theorem C2_witness :
    predictNextOutcome c2hist = some c2res ∧
      ((c2res.outcome = .BIG ↔
          c2res.modelBreakdown.smallVotes < c2res.modelBreakdown.bigVotes) ∧
        (c2res.modelBreakdown.bigVotes = c2res.modelBreakdown.smallVotes →
          c2res.outcome = .SMALL)) :=
  ⟨predictNextOutcome_single "w2" 50 .BIG,
    C2_theorem c2hist c2res (predictNextOutcome_single "w2" 50 .BIG)⟩

/-- **C3, counterexample.**  The claim says the aggregator guards against a
near-zero vote sum and reports confidence 50 in that degenerate case.  There
is no such guard: the confidence expression at a zero sum evaluates to
`0/0 = NaN`, not `50`. -/
theorem C3_counterexample :
    computeConfidence 0 0 = JsNum.nan ∧ computeConfidence 0 0 ≠ JsNum.fin 50 := by
  constructor
  · norm_num [computeConfidence, JsNum.div, JsNum.mul]
  · simp [computeConfidence, JsNum.div, JsNum.mul]

/-- **C3, amended.**  The code contains no near-zero guard — the confidence
is `max/(big+small)·100`, unguarded (`NaN` at a zero sum, per the
counterexample).  The degenerate case is unreachable: whenever
`predictNextOutcome` returns, the vote shares sum to exactly 1 (every model
votes and the weights sum to 1), so the confidence is a defined finite
number. -/
theorem C3_theorem (h : List DrawRecord) (r : PredictionResult)
    (hr : predictNextOutcome h = some r) :
    r.modelBreakdown.bigVotes / 100 + r.modelBreakdown.smallVotes / 100 = 1 ∧
      ∃ q, r.confidence = .fin q := by
  obtain ⟨ps, hps, rfl⟩ := predictNextOutcome_some hr
  have hsum := ps_weight_sum hps
  constructor
  · dsimp only
    field_simp
    linarith
  · exact ⟨_, computeConfidence_of_sum_one hsum⟩

/-- The one-record history used as the C3 witness. -/
def c3hist : List DrawRecord := [⟨"w3", 10, .SMALL⟩]

/-- The result the engine produces on `c3hist`. -/
def c3res : PredictionResult :=
  { outcome := .BIG
    confidence := .fin 85
    modelCount := 120
    trendDirection := .NEUTRAL
    trendStrength := .fin 0
    suggestedStake := ⟨.fin (119 / 200), .MEDIUM, .MEDIUM⟩
    modelBreakdown := ⟨85, 15, 120⟩ }

/-- Witness for C3: the engine run through on a concrete history. -/
theorem C3_witness :
    predictNextOutcome c3hist = some c3res ∧
      (c3res.modelBreakdown.bigVotes / 100 + c3res.modelBreakdown.smallVotes / 100 = 1 ∧
        ∃ q, c3res.confidence = .fin q) :=
  ⟨predictNextOutcome_single "w3" 10 .SMALL,
    C3_theorem c3hist c3res (predictNextOutcome_single "w3" 10 .SMALL)⟩

/-- **C9.**  On a flat history (all numbers equal) with at least `lookback`
records, mean reversion does not raise despite the zero standard deviation
(`zScore = 0/0 = NaN`, both deviation tests false) and deterministically
returns the fixed outcome `BIG` via the short-term-average fallback. -/
theorem C9_theorem (data : List DrawRecord) (lookback : ℕ) (deviation c : ℚ)
    (hl : 1 ≤ lookback) (hlen : lookback ≤ data.length)
    (hc : ∀ r ∈ data, r.number = c) :
    meanReversionPrediction data lookback deviation = some .BIG :=
  meanReversionPrediction_flat hl
    (by intro he; subst he; simp at hlen; omega) hc

/-- Witness for C9: ten equal records, `lookback = 10`, `deviation = 1`. -/
theorem C9_witness :
    (1 ≤ 10 ∧ 10 ≤ (List.replicate 10 (⟨"w9", 37, .SMALL⟩ : DrawRecord)).length ∧
      ∀ r ∈ List.replicate 10 (⟨"w9", 37, .SMALL⟩ : DrawRecord), r.number = 37) ∧
      meanReversionPrediction (List.replicate 10 ⟨"w9", 37, .SMALL⟩) 10 1 =
        some .BIG :=
  ⟨⟨by norm_num, by simp, fun r hr => by rw [List.eq_of_mem_replicate hr]⟩,
    C9_theorem _ 10 1 37 (by norm_num) (by simp)
      (fun r hr => by rw [List.eq_of_mem_replicate hr])⟩

/-- **C10.**  For every history whose number projection has fewer than 20
entries, `bollingerPosition` returns position `0` (its period guard), the
`> 0` vote test fails, and every Bollinger-method statistical model votes
`SMALL`. -/
theorem C10_theorem (data : List DrawRecord) (hlen : data.length < 20) :
    bollingerPosition ((data.take 20).map (·.number)) 20 2 = some (.fin 0) ∧
      statisticalPrediction data 3 = some .SMALL := by
  have hb : bollingerPosition ((data.take 20).map (·.number)) 20 2 = some (.fin 0) := by
    rw [bollingerPosition, if_pos (by simp; omega)]
  refine ⟨hb, ?_⟩
  simp only [statisticalPrediction, hb, Option.map_some']
  norm_num [JsNum.gtB, JsNum.ltB]

/-- Witness for C10: a three-record history. -/
theorem C10_witness :
    (([⟨"a", 1, .SMALL⟩, ⟨"b", 2, .SMALL⟩, ⟨"c", 3, .SMALL⟩] : List DrawRecord).length < 20) ∧
      (bollingerPosition (((([⟨"a", 1, .SMALL⟩, ⟨"b", 2, .SMALL⟩, ⟨"c", 3, .SMALL⟩] :
            List DrawRecord)).take 20).map (·.number)) 20 2 = some (.fin 0) ∧
        statisticalPrediction
          [⟨"a", 1, .SMALL⟩, ⟨"b", 2, .SMALL⟩, ⟨"c", 3, .SMALL⟩] 3 = some .SMALL) :=
  ⟨by simp, C10_theorem _ (by simp)⟩

/-- **C4.**  The constructed population has exactly 120 models, every weight
strictly positive, total weight 1.0 within 1e-6, and family subtotals equal
to the fixed shares 0.40 / 0.25 / 0.20 / 0.15 (with counts 48 / 30 / 24 / 18)
within 1e-6.  (In exact rational arithmetic the sums are exact; the stated
tolerance absorbs the source's floating-point drift.) -/
theorem C4_theorem :
    models.length = 120 ∧
    (∀ m ∈ models, 0 < m.weight) ∧
    |(models.map (·.weight)).sum - 1| ≤ 1 / 1000000 ∧
    ((models.filter (fun m => m.type = .TREND_FOLLOWING)).length = 48 ∧
      |((models.filter (fun m => m.type = .TREND_FOLLOWING)).map (·.weight)).sum - 2 / 5|
        ≤ 1 / 1000000) ∧
    ((models.filter (fun m => m.type = .MEAN_REVERSION)).length = 30 ∧
      |((models.filter (fun m => m.type = .MEAN_REVERSION)).map (·.weight)).sum - 1 / 4|
        ≤ 1 / 1000000) ∧
    ((models.filter (fun m => m.type = .PATTERN_RECOGNITION)).length = 24 ∧
      |((models.filter (fun m => m.type = .PATTERN_RECOGNITION)).map (·.weight)).sum - 1 / 5|
        ≤ 1 / 1000000) ∧
    ((models.filter (fun m => m.type = .STATISTICAL)).length = 18 ∧
      |((models.filter (fun m => m.type = .STATISTICAL)).map (·.weight)).sum - 3 / 20|
        ≤ 1 / 1000000) := by
  refine ⟨models_length, models_weight_pos, ?_, ?_, ?_, ?_, ?_⟩
  · rw [models_weight_sum]
    norm_num
  all_goals
    simp only [models, initializeModels, List.filter_append, List.length_append,
      List.map_append, List.sum_append, createTrendModels,
      createMeanReversionModels, createPatternModels, createStatisticalModels,
      List.map_map, Function.comp_def, List.filter_map]
  all_goals
    norm_num [sum_map_const_range]
  all_goals simp

/-- **C6.**  `calculateStake` is the pure function
`stake = 1 · (confidence/100) · (1 + 2·trendStrength)` tiered as: confidence
> 75 and trendStrength > 0.1 → full stake, HIGH_CONFIDENCE, risk LOW;
otherwise confidence > 65 → 70 % of stake, MEDIUM, MEDIUM; otherwise 30 % of
stake, LOW, HIGH.  In particular (80, 0.2) ↦ HIGH_CONFIDENCE/LOW,
(70, 0) ↦ MEDIUM, and confidence 40 ↦ LOW/HIGH. -/
theorem C6_theorem (c t : ℚ) :
    ((calculateStake (.fin c) (.fin t)).amount =
        .fin (if 75 < c ∧ 1 / 10 < t then 1 * (c / 100) * (1 + t * 2)
          else if 65 < c then 1 * (c / 100) * (1 + t * 2) * (7 / 10)
          else 1 * (c / 100) * (1 + t * 2) * (3 / 10)) ∧
      (calculateStake (.fin c) (.fin t)).level =
        (if 75 < c ∧ 1 / 10 < t then .HIGH_CONFIDENCE
          else if 65 < c then .MEDIUM else .LOW) ∧
      (calculateStake (.fin c) (.fin t)).risk =
        (if 75 < c ∧ 1 / 10 < t then .LOW
          else if 65 < c then .MEDIUM else .HIGH)) ∧
    (calculateStake (.fin 80) (.fin (1 / 5))).level = .HIGH_CONFIDENCE ∧
    (calculateStake (.fin 80) (.fin (1 / 5))).risk = .LOW ∧
    (calculateStake (.fin 70) (.fin 0)).level = .MEDIUM ∧
    (calculateStake (.fin 70) (.fin 0)).risk = .MEDIUM ∧
    (calculateStake (.fin 40) (.fin 0)).level = .LOW ∧
    (calculateStake (.fin 40) (.fin 0)).risk = .HIGH := by
  have key : ∀ c t : ℚ,
      (calculateStake (.fin c) (.fin t)).amount =
          .fin (if 75 < c ∧ 1 / 10 < t then 1 * (c / 100) * (1 + t * 2)
            else if 65 < c then 1 * (c / 100) * (1 + t * 2) * (7 / 10)
            else 1 * (c / 100) * (1 + t * 2) * (3 / 10)) ∧
        (calculateStake (.fin c) (.fin t)).level =
          (if 75 < c ∧ 1 / 10 < t then .HIGH_CONFIDENCE
            else if 65 < c then .MEDIUM else .LOW) ∧
        (calculateStake (.fin c) (.fin t)).risk =
          (if 75 < c ∧ 1 / 10 < t then .LOW
            else if 65 < c then .MEDIUM else .HIGH) := by
    intro c t
    simp only [calculateStake, JsNum.gtB, JsNum.ltB, Bool.and_eq_true,
      decide_eq_true_eq]
    split_ifs with h1 h2
    · refine ⟨?_, rfl, rfl⟩
      simp only [JsNum.mul, JsNum.div, JsNum.add, JsNum.fin.injEq,
        OfNat.ofNat_ne_zero, if_false]
      try ring
    · refine ⟨?_, rfl, rfl⟩
      simp only [JsNum.mul, JsNum.div, JsNum.add, JsNum.fin.injEq,
        OfNat.ofNat_ne_zero, if_false]
      try ring
    · refine ⟨?_, rfl, rfl⟩
      simp only [JsNum.mul, JsNum.div, JsNum.add, JsNum.fin.injEq,
        OfNat.ofNat_ne_zero, if_false]
      try ring
  refine ⟨key c t, ?_, ?_, ?_, ?_, ?_, ?_⟩
  · rw [(key 80 (1 / 5)).2.1]
    norm_num
  · rw [(key 80 (1 / 5)).2.2]
    norm_num
  · rw [(key 70 0).2.1]
    norm_num
  · rw [(key 70 0).2.2]
    norm_num
  · rw [(key 40 0).2.1]
    norm_num
  · rw [(key 40 0).2.2]
    norm_num

/-- **C5.**  For every history of length at least 50, `predictNextOutcome`
returns a result whose outcome is `BIG` or `SMALL`, whose confidence is a
finite value in `[50, 100]`, and whose `modelBreakdown` big/small vote shares
sum to 1.0 within 1e-6. -/
theorem C5_theorem (h : List DrawRecord) (hlen : 50 ≤ h.length) :
    ∃ r, predictNextOutcome h = some r ∧
      (r.outcome = .BIG ∨ r.outcome = .SMALL) ∧
      (∃ q, r.confidence = .fin q ∧ 50 ≤ q ∧ q ≤ 100) ∧
      |r.modelBreakdown.bigVotes / 100 + r.modelBreakdown.smallVotes / 100 - 1|
        ≤ 1 / 1000000 := by
  have hne : h ≠ [] := by
    intro he
    subst he
    simp at hlen
  obtain ⟨r, hr⟩ := Option.isSome_iff_exists.mp (predictNextOutcome_isSome hne)
  refine ⟨r, hr, ?_⟩
  obtain ⟨ps, hps, rfl⟩ := predictNextOutcome_some hr
  have hsum := ps_weight_sum hps
  obtain ⟨hb, hs⟩ := tallyVotes_nonneg (ps_weight_nonneg hps)
  refine ⟨?_, ?_, ?_⟩
  · dsimp only
    split <;> simp
  · refine ⟨max (tallyVotes ps).1 (tallyVotes ps).2 * 100,
      computeConfidence_of_sum_one hsum, ?_, ?_⟩
    · have hmax : 1 / 2 ≤ max (tallyVotes ps).1 (tallyVotes ps).2 := by
        rcases le_total (tallyVotes ps).1 (tallyVotes ps).2 with hle | hle
        · rw [max_eq_right hle]
          linarith
        · rw [max_eq_left hle]
          linarith
      linarith
    · have hmax : max (tallyVotes ps).1 (tallyVotes ps).2 ≤ 1 :=
        max_le (by linarith) (by linarith)
      linarith
  · dsimp only
    have hbig : (tallyVotes ps).1 * 100 / 100 = (tallyVotes ps).1 := by ring
    have hsml : (tallyVotes ps).2 * 100 / 100 = (tallyVotes ps).2 := by ring
    rw [hbig, hsml, hsum]
    norm_num

/-- Witness for C5: fifty identical records. -/
theorem C5_witness :
    50 ≤ (List.replicate 50 (⟨"w5", 50, .BIG⟩ : DrawRecord)).length ∧
      ∃ r, predictNextOutcome (List.replicate 50 ⟨"w5", 50, .BIG⟩) = some r ∧
        (r.outcome = .BIG ∨ r.outcome = .SMALL) ∧
        (∃ q, r.confidence = .fin q ∧ 50 ≤ q ∧ q ≤ 100) ∧
        |r.modelBreakdown.bigVotes / 100 + r.modelBreakdown.smallVotes / 100 - 1|
          ≤ 1 / 1000000 :=
  ⟨by simp, C5_theorem _ (by simp)⟩

lemma jsDiv_pos_zero {a : ℚ} (ha : 0 < a) :
    JsNum.div (.fin a) (.fin 0) = .posInf := by
  simp [JsNum.div, ha, ha.ne']

/-- A flat 20-record history (all numbers 50), the C7 counterexample input:
its 14 deltas are all zero, so `avgLoss = 0` *and* `avgGain = 0`. -/
def c7flat : List DrawRecord :=
  [⟨"0", 50, .BIG⟩, ⟨"1", 50, .BIG⟩, ⟨"2", 50, .BIG⟩, ⟨"3", 50, .BIG⟩,
   ⟨"4", 50, .BIG⟩, ⟨"5", 50, .BIG⟩, ⟨"6", 50, .BIG⟩, ⟨"7", 50, .BIG⟩,
   ⟨"8", 50, .BIG⟩, ⟨"9", 50, .BIG⟩, ⟨"10", 50, .BIG⟩, ⟨"11", 50, .BIG⟩,
   ⟨"12", 50, .BIG⟩, ⟨"13", 50, .BIG⟩, ⟨"14", 50, .BIG⟩, ⟨"15", 50, .BIG⟩,
   ⟨"16", 50, .BIG⟩, ⟨"17", 50, .BIG⟩, ⟨"18", 50, .BIG⟩, ⟨"19", 50, .BIG⟩]

/-- **C7, counterexample.**  The claim says *every* slice with `avgLoss = 0`
makes the RSI model vote `BIG`.  On a flat slice `avgLoss = 0` holds but
`avgGain = 0` too, so `rs = 0/0 = NaN`, the RSI is `NaN`, the `RSI > 50`
test is false, and the model votes `SMALL`. -/
theorem C7_counterexample :
    (rsiGainsLosses ((c7flat.take 20).map (·.number)) 14).2 / 14 = 0 ∧
      calculateRSI ((c7flat.take 20).map (·.number)) 14 = JsNum.nan ∧
      statisticalPrediction c7flat 1 = some .SMALL := by
  have hgl : rsiGainsLosses ((c7flat.take 20).map (·.number)) 14 = (0, 0) := by
    norm_num [c7flat, rsiGainsLosses, List.range_succ]
  have hrsi : calculateRSI ((c7flat.take 20).map (·.number)) 14 = JsNum.nan := by
    rw [calculateRSI, if_neg (by norm_num [c7flat])]
    rw [hgl]
    norm_num [JsNum.div, JsNum.add, JsNum.sub, JsNum.neg]
  refine ⟨by rw [hgl]; norm_num, hrsi, ?_⟩
  simp only [statisticalPrediction, hrsi]
  norm_num [JsNum.gtB, JsNum.ltB]

/-- **C7, amended.**  On every slice of at least 15 numbers whose 14 most
recent deltas give `avgLoss = 0` *and a strictly positive `avgGain`*, the
degenerate division is defined: `rs = Infinity`, the RSI is exactly 100
(treated as maximal) and the model votes `BIG`, with no exception.  (Flat
slices, where the average gain is zero as well, instead produce `RSI = NaN`
and a `SMALL` vote — the counterexample above.) -/
theorem C7_theorem (data : List DrawRecord)
    (h15 : 15 ≤ ((data.take 20).map (·.number)).length)
    (hloss : (rsiGainsLosses ((data.take 20).map (·.number)) 14).2 = 0)
    (hgain : 0 < (rsiGainsLosses ((data.take 20).map (·.number)) 14).1) :
    calculateRSI ((data.take 20).map (·.number)) 14 = .fin 100 ∧
      statisticalPrediction data 1 = some .BIG := by
  have hrsi : calculateRSI ((data.take 20).map (·.number)) 14 = .fin 100 := by
    have havg : 0 < (rsiGainsLosses ((data.take 20).map (·.number)) 14).1 / (14 : ℚ) :=
      div_pos hgain (by norm_num)
    rw [calculateRSI, if_neg (by omega)]
    simp only [hloss, zero_div, Nat.cast_ofNat]
    rw [jsDiv_pos_zero havg]
    norm_num [JsNum.add, JsNum.div, JsNum.sub, JsNum.neg]
  refine ⟨hrsi, ?_⟩
  simp only [statisticalPrediction, hrsi]
  norm_num [JsNum.gtB, JsNum.ltB]

/-- A strictly falling 15-record history (numbers 15 down to 1, newest
first), i.e. strictly rising draw numbers in time order: every delta is a
gain, `avgLoss = 0`, `avgGain > 0`. -/
def c7rising : List DrawRecord :=
  [⟨"0", 15, .SMALL⟩, ⟨"1", 14, .SMALL⟩, ⟨"2", 13, .SMALL⟩, ⟨"3", 12, .SMALL⟩,
   ⟨"4", 11, .SMALL⟩, ⟨"5", 10, .SMALL⟩, ⟨"6", 9, .SMALL⟩, ⟨"7", 8, .SMALL⟩,
   ⟨"8", 7, .SMALL⟩, ⟨"9", 6, .SMALL⟩, ⟨"10", 5, .SMALL⟩, ⟨"11", 4, .SMALL⟩,
   ⟨"12", 3, .SMALL⟩, ⟨"13", 2, .SMALL⟩, ⟨"14", 1, .SMALL⟩]

/-- Witness for C7 (amended): the strictly rising history. -/
theorem C7_witness :
    (15 ≤ ((c7rising.take 20).map (·.number)).length ∧
      (rsiGainsLosses ((c7rising.take 20).map (·.number)) 14).2 = 0 ∧
      0 < (rsiGainsLosses ((c7rising.take 20).map (·.number)) 14).1) ∧
      (calculateRSI ((c7rising.take 20).map (·.number)) 14 = .fin 100 ∧
        statisticalPrediction c7rising 1 = some .BIG) :=
  ⟨⟨by norm_num [c7rising],
    by norm_num [c7rising, rsiGainsLosses, List.range_succ],
    by norm_num [c7rising, rsiGainsLosses, List.range_succ]⟩,
    C7_theorem c7rising (by norm_num [c7rising])
      (by norm_num [c7rising, rsiGainsLosses, List.range_succ])
      (by norm_num [c7rising, rsiGainsLosses, List.range_succ])⟩

/-- A history whose number projection is literally the monotonically
increasing sequence 1, 2, …, 20 (in the engine's newest-first index order,
per the spec's `index 0 = most recent` invariant). -/
def c8incr : List DrawRecord :=
  [⟨"0", 1, .SMALL⟩, ⟨"1", 2, .SMALL⟩, ⟨"2", 3, .SMALL⟩, ⟨"3", 4, .SMALL⟩,
   ⟨"4", 5, .SMALL⟩, ⟨"5", 6, .SMALL⟩, ⟨"6", 7, .SMALL⟩, ⟨"7", 8, .SMALL⟩,
   ⟨"8", 9, .SMALL⟩, ⟨"9", 10, .SMALL⟩, ⟨"10", 11, .SMALL⟩, ⟨"11", 12, .SMALL⟩,
   ⟨"12", 13, .SMALL⟩, ⟨"13", 14, .SMALL⟩, ⟨"14", 15, .SMALL⟩, ⟨"15", 16, .SMALL⟩,
   ⟨"16", 17, .SMALL⟩, ⟨"17", 18, .SMALL⟩, ⟨"18", 19, .SMALL⟩, ⟨"19", 20, .SMALL⟩]

/-- **C8, counterexample.**  The claim says a window-5 trend model returns
`BIG` on every monotonically increasing 20-value number projection.  With
the projection literally increasing — `[1, 2, …, 20]` — the *newest* values
(indices 0–4) are the smallest, the recent average (3) is below the previous
average (8), and the model (window 5, threshold 0.5, the engine's `TREND_0`)
returns `SMALL`. -/
theorem C8_counterexample :
    c8incr.map (·.number) =
      [1, 2, 3, 4, 5, 6, 7, 8, 9, 10, 11, 12, 13, 14, 15, 16, 17, 18, 19, 20] ∧
      trendFollowingPrediction c8incr 5 (1 / 2) = .SMALL := by
  constructor
  · norm_num [c8incr]
  · rw [trendFollowingPrediction, if_neg (by norm_num [c8incr])]
    norm_num [c8incr, jsMean, JsNum.div, JsNum.abs, JsNum.gtB, JsNum.ltB]

/-- **C8, amended.**  For a 20-record history whose draw numbers are
nonnegative and *strictly increasing in time order* — i.e. strictly
decreasing along the newest-first projection, the engine's ordering
invariant — a window-5 trend-following model returns `BIG` for every
threshold: either the relative trend exceeds the threshold (and it is
positive), or the momentum fallback `newest − oldest-in-window` is
positive. -/
theorem C8_theorem (data : List DrawRecord) (threshold : ℚ)
    (hlen : data.length = 20)
    (hmono : data.Pairwise (fun a b => b.number < a.number))
    (hpos : ∀ r ∈ data, 0 ≤ r.number) :
    trendFollowingPrediction data 5 threshold = .BIG := by
  rcases data with _ | ⟨r0, data⟩
  · simp at hlen
  rcases data with _ | ⟨r1, data⟩
  · simp at hlen
  rcases data with _ | ⟨r2, data⟩
  · simp at hlen
  rcases data with _ | ⟨r3, data⟩
  · simp at hlen
  rcases data with _ | ⟨r4, data⟩
  · simp at hlen
  rcases data with _ | ⟨p0, data⟩
  · simp at hlen
  rcases data with _ | ⟨q0, rest⟩
  · simp at hlen
  simp only [List.pairwise_cons] at hmono
  obtain ⟨h0, h1, h2, h3, h4, hp0, hq0, -⟩ := hmono
  have htake5 : (r0::r1::r2::r3::r4::p0::q0::rest).take 5 = [r0, r1, r2, r3, r4] := rfl
  have hdrop5 : (r0::r1::r2::r3::r4::p0::q0::rest).drop 5 = p0::q0::rest := rfl
  have htake5' : (p0::q0::rest).take 5 = p0 :: q0 :: rest.take 3 := rfl
  rw [trendFollowingPrediction, if_neg (by simp only [List.length_cons]; omega),
    htake5, hdrop5, htake5']
  simp only []
  set rA := jsMean ([r0, r1, r2, r3, r4].map (·.number)) with hrA
  set pA := jsMean ((p0 :: q0 :: rest.take 3).map (·.number)) with hpA
  have hrec : ∀ x ∈ [r0, r1, r2, r3, r4].map (·.number), p0.number < x := by
    intro x hx
    simp only [List.mem_map, List.mem_cons, List.not_mem_nil, or_false] at hx
    obtain ⟨r, hr, rfl⟩ := hx
    rcases hr with heq | heq | heq | heq | heq
    · rw [heq]
      exact h0 p0 (by simp)
    · rw [heq]
      exact h1 p0 (by simp)
    · rw [heq]
      exact h2 p0 (by simp)
    · rw [heq]
      exact h3 p0 (by simp)
    · rw [heq]
      exact h4 p0 (by simp)
  have hprev_le : ∀ x ∈ (p0 :: q0 :: rest.take 3).map (·.number), x ≤ p0.number := by
    intro x hx
    simp only [List.mem_map, List.mem_cons] at hx
    obtain ⟨r, hr, rfl⟩ := hx
    rcases hr with heq | heq | hmem
    · rw [heq]
    · rw [heq]
      exact (hp0 q0 (by simp)).le
    · exact (hp0 r (List.mem_cons_of_mem _ (List.mem_of_mem_take hmem))).le
  have hprev_nonneg : ∀ x ∈ (p0 :: q0 :: rest.take 3).map (·.number), 0 ≤ x := by
    intro x hx
    simp only [List.mem_map, List.mem_cons] at hx
    obtain ⟨r, hr, rfl⟩ := hx
    rcases hr with heq | heq | hmem
    · rw [heq]
      exact hpos p0 (by simp)
    · rw [heq]
      exact hpos q0 (by simp)
    · have hr' : r ∈ rest := List.mem_of_mem_take hmem
      exact hpos r (by simp [hr'])
  have hp0pos : 0 < p0.number := by
    have hlt := hp0 q0 (by simp)
    have hge := hpos q0 (by simp)
    linarith
  have hpApos : 0 < pA :=
    jsMean_pos hprev_nonneg
      ⟨p0.number, List.mem_map.mpr ⟨p0, by simp, rfl⟩, hp0pos⟩
  have hpAle : pA ≤ p0.number := jsMean_le_of_forall_le hprev_le (by simp)
  have hrAgt : p0.number < rA := lt_jsMean_of_forall_lt hrec (by simp)
  have hv : 0 < (rA - pA) / pA := div_pos (by linarith) hpApos
  have hdiv : JsNum.div (.fin (rA - pA)) (.fin pA) = .fin ((rA - pA) / pA) := by
    simp [JsNum.div, hpApos.ne']
  have hhead : ([r0, r1, r2, r3, r4].map (·.number)).headD 0 = r0.number := rfl
  have hlast : ([r0, r1, r2, r3, r4].map (·.number)).getLastD 0 = r4.number := rfl
  have hmom : 0 < r0.number - r4.number := by
    have := h0 r4 (by simp)
    linarith
  rw [hdiv]
  simp only [JsNum.abs, JsNum.gtB, JsNum.ltB, hhead, hlast]
  by_cases hθ : threshold < |(rA - pA) / pA|
  · simp [hθ, hv]
  · simp [hθ, hv, hmom]

/-- A history whose numbers strictly increase in time order (newest first:
20 down to 1), the C8 witness input. -/
def c8rising : List DrawRecord :=
  [⟨"0", 20, .BIG⟩, ⟨"1", 19, .BIG⟩, ⟨"2", 18, .BIG⟩, ⟨"3", 17, .BIG⟩,
   ⟨"4", 16, .BIG⟩, ⟨"5", 15, .BIG⟩, ⟨"6", 14, .BIG⟩, ⟨"7", 13, .BIG⟩,
   ⟨"8", 12, .BIG⟩, ⟨"9", 11, .BIG⟩, ⟨"10", 10, .BIG⟩, ⟨"11", 9, .BIG⟩,
   ⟨"12", 8, .BIG⟩, ⟨"13", 7, .BIG⟩, ⟨"14", 6, .BIG⟩, ⟨"15", 5, .BIG⟩,
   ⟨"16", 4, .BIG⟩, ⟨"17", 3, .BIG⟩, ⟨"18", 2, .BIG⟩, ⟨"19", 1, .SMALL⟩]

/-- Witness for C8 (amended): the rising history with the engine's
threshold 0.5. -/
theorem C8_witness :
    (c8rising.length = 20 ∧
      c8rising.Pairwise (fun a b => b.number < a.number) ∧
      ∀ r ∈ c8rising, 0 ≤ r.number) ∧
      trendFollowingPrediction c8rising 5 (1 / 2) = .BIG := by
  have hl : c8rising.length = 20 := by norm_num [c8rising]
  have hpair : c8rising.Pairwise (fun a b => b.number < a.number) := by
    simp only [c8rising, List.pairwise_cons, List.forall_mem_cons,
      List.forall_mem_nil, List.Pairwise.nil, and_true]
    norm_num
  have hnn : ∀ r ∈ c8rising, 0 ≤ r.number := by
    simp only [c8rising, List.forall_mem_cons, List.forall_mem_nil, and_true]
    norm_num
  exact ⟨⟨hl, hpair, hnn⟩, C8_theorem c8rising (1 / 2) hl hpair hnn⟩

end Kankan
